import Mathlib

set_option maxRecDepth 4000

/-!
Shallow embedding of the interactive MCQ trainer (src/script.js): the question
and answer text parsers, the question/answer matcher, the per-question
interaction state machine, and the scoreboard percent computation.

All definitions are translated from the JavaScript source.  Definitions whose
names start with `spec` or `claim` are stated from the specification's words
and are only used to compare the spec against the source.
-/

/-- Members of the JS regex class `\s` that can occur in the ASCII inputs the
code handles (space, tab, newline, carriage return, vertical tab, form feed). -/
def isJsWhitespace (c : Char) : Bool :=
  c = ' ' || c = '\t' || c = '\n' || c = '\r' || c = '\x0b' || c = '\x0c'

/-- The separator class `[\.:\s]` used by the question-start and answer-start
regexes in `parseQuestionsText` / `parseAnswersText`. -/
def isSepChar (c : Char) : Bool :=
  c = '.' || c = ':' || isJsWhitespace c

/-- A character matched by `[A-Z]` under the `i` flag (ASCII letter). -/
def isAsciiLetterCI (c : Char) : Bool :=
  ('A' ≤ c && c ≤ 'Z') || ('a' ≤ c && c ≤ 'z')

/-- The JS `String.prototype.trim` (restricted to the whitespace characters above). -/
def jsTrim (s : String) : String :=
  ⟨((s.data.dropWhile isJsWhitespace).reverse.dropWhile isJsWhitespace).reverse⟩

/-- The JS `text.split(/\r?\n/)`.  (For a text ending in a bare `\r` this strips that
`\r` where JS would keep it, but every consumer trims each line first, so the
difference is unobservable downstream.) -/
def splitLines (text : String) : List String :=
  (text.splitOn "\n").map (fun l => if l.endsWith "\r" then l.dropRight 1 else l)

/-- Case-insensitive literal match: consume `pat` from the head of `cs`,
returning the remaining characters on success. -/
def ciConsume : List Char → List Char → Option (List Char)
  | [], cs => some cs
  | _ :: _, [] => none
  | p :: ps, c :: cs => if c.toLower = p.toLower then ciConsume ps cs else none

/-- Resolved question type: the strings `'SINGLE'` / `'MULTIPLE'` of the JS. -/
inductive QType | SINGLE | MULTIPLE
  deriving DecidableEq

/-- Question status: the strings `'ungraded'` / `'unanswered'` / `'correct'` /
`'incorrect'` of the JS. -/
inductive Status | ungraded | unanswered | correct | incorrect
  deriving DecidableEq

structure Choice where
  key : String
  text : String
  deriving DecidableEq

/-- A question as produced by `parseQuestionsText` (before matching). -/
structure ParsedQuestion where
  id : String
  text : String
  explicitType : Option QType
  choices : List Choice
  rawLine : Nat
  deriving DecidableEq

/-- An answer record as produced by `parseAnswersText`. -/
structure Answer where
  id : String
  correctKeys : List String
  explanation : String
  deriving DecidableEq

/-- A question after `processAndRender` has matched it with the answer map:
the fields the matcher and the interaction state machine read and write. -/
structure Question where
  id : String
  text : String
  explicitType : Option QType
  choices : List Choice
  correctKeys : List String
  explanation : String
  type : QType
  status : Status
  userSelectedKeys : List String
  deriving DecidableEq

structure Stats where
  total : Nat
  correct : Nat
  incorrect : Nat
  deriving DecidableEq

/-! ### The question-start regex

`qStartRegex = /^(?:Q)?(\d+)[\.:\s]*(?:\[(Single|Multiple)\])?\s*(.*)/i`
applied in `parseQuestionsText` (script.js line 719/727). -/

/-- The captures of a successful `qStartRegex` match: group 1 (the digits),
group 2 (the raw bracketed tag text, if any) and group 3 (the rest). -/
structure QStart where
  id : String
  tag : Option String
  rest : String
  deriving DecidableEq

/-- Match `(?:\[(Single|Multiple)\])?` at the head of `cs`: on success return
the captured tag text and the remainder; otherwise the group matches empty. -/
def matchBracketTag (cs : List Char) : Option String × List Char :=
  match cs with
  | '[' :: rest =>
    match ciConsume "Single".data rest with
    | some (']' :: cs') => (some ⟨rest.take 6⟩, cs')
    | _ =>
      match ciConsume "Multiple".data rest with
      | some (']' :: cs') => (some ⟨rest.take 8⟩, cs')
      | _ => (none, cs)
  | _ => (none, cs)

/-- The match `line.match(qStartRegex)`.  The regex engine consumes the optional `Q`
only when a digit follows (otherwise the overall match would fail), takes one
or more digits, greedily skips `[\.:\s]*`, optionally matches the bracketed
tag, greedily skips `\s*`, and captures the rest of the line. -/
def matchQStart (line : String) : Option QStart :=
  let cs := line.data
  let cs :=
    match cs with
    | c :: d :: rest => if (c = 'Q' ∨ c = 'q') ∧ d.isDigit then d :: rest else cs
    | _ => cs
  let digits := cs.takeWhile Char.isDigit
  let afterDigits := cs.dropWhile Char.isDigit
  if digits.isEmpty then none
  else
    let afterSep := afterDigits.dropWhile isSepChar
    let tagAndRest := matchBracketTag afterSep
    let rest := tagAndRest.2.dropWhile isJsWhitespace
    some { id := ⟨digits⟩, tag := tagAndRest.1, rest := ⟨rest⟩ }

/-- The value `qMatch[2] ? qMatch[2].toUpperCase() : null` mapped into the type enum:
the capture group only ever matches `Single` or `Multiple` case-insensitively. -/
def tagToType (t : String) : QType :=
  if t.toUpper = "SINGLE" then QType.SINGLE else QType.MULTIPLE

/-! ### The choice regex

`choiceRegex = /^\s*([A-Z])[\.\)]\s*(.*)/` (script.js line 720/745). -/

structure ChoiceStart where
  key : String
  text : String
  deriving DecidableEq

/-- The match `line.match(choiceRegex)`: a single uppercase letter (case-sensitive, no
`i` flag) followed by `.` or `)`, optional whitespace, then the choice text. -/
def matchChoice (line : String) : Option ChoiceStart :=
  let cs := line.data.dropWhile isJsWhitespace
  match cs with
  | c :: d :: rest =>
    if ('A' ≤ c ∧ c ≤ 'Z') ∧ (d = '.' ∨ d = ')') then
      some { key := ⟨[c]⟩, text := ⟨rest.dropWhile isJsWhitespace⟩ }
    else none
  | _ => none

/-- Append a continuation line to the text of the last choice
(`currentQ.choices[currentQ.choices.length - 1].text += '\n' + line`). -/
def appendToLastChoice : List Choice → String → List Choice
  | [], _ => []
  | [c], line => [{ c with text := c.text ++ "\n" ++ line }]
  | c :: c' :: rest, line => c :: appendToLastChoice (c' :: rest) line

/-- The loop body of `parseQuestionsText` (script.js 722-765): `i` is the
0-based index of the next line, `cur` the open question, `acc` the flushed
questions. -/
def parseQLoop : List String → Nat → Option ParsedQuestion → List ParsedQuestion →
    List ParsedQuestion
  | [], _, cur, acc =>
    match cur with
    | some q => acc ++ [q]
    | none => acc
  | l :: ls, i, cur, acc =>
    let line := jsTrim l
    if line = "" then parseQLoop ls (i + 1) cur acc
    else
      match matchQStart line with
      | some m =>
        let acc' :=
          match cur with
          | some q => acc ++ [q]
          | none => acc
        parseQLoop ls (i + 1)
          (some { id := m.id, text := m.rest, explicitType := m.tag.map tagToType,
                  choices := [], rawLine := i + 1 }) acc'
      | none =>
        match matchChoice line with
        | some c =>
          match cur with
          | some q =>
            parseQLoop ls (i + 1)
              (some { q with choices := q.choices ++ [{ key := c.key.toUpper, text := c.text }] })
              acc
          | none => parseQLoop ls (i + 1) cur acc
        | none =>
          match cur with
          | some q =>
            if q.choices.length > 0 then
              parseQLoop ls (i + 1) (some { q with choices := appendToLastChoice q.choices line })
                acc
            else
              parseQLoop ls (i + 1)
                (some { q with text := if q.text = "" then line else q.text ++ "\n" ++ line }) acc
          | none => parseQLoop ls (i + 1) cur acc

/-- The function `parseQuestionsText` (script.js 713-768). -/
def parseQuestionsText (text : String) : List ParsedQuestion :=
  parseQLoop (splitLines text) 0 none []

/-! ### The answer-start regex

`aStartRegex = /^(\d+)[\.:\s]*Correct:\s*([A-Z](?:\s*,\s*[A-Z])*)/i`
(script.js line 776/783). -/

/-- The captures of a successful `aStartRegex` match: group 1 (digits) and
group 2 (the raw comma-separated letter list as matched). -/
structure AStart where
  id : String
  keysRaw : String
  deriving DecidableEq

/-- One or more iterations of `(?:\s*,\s*[A-Z])`, returning the characters
the iterations matched (which belong to capture group 2).  `fuel` bounds the
recursion; each iteration consumes at least two characters. -/
def keysTail (fuel : Nat) (cs : List Char) : List Char :=
  match fuel with
  | 0 => []
  | fuel + 1 =>
    let ws1 := cs.takeWhile isJsWhitespace
    let r1 := cs.dropWhile isJsWhitespace
    match r1 with
    | ',' :: r2 =>
      let ws2 := r2.takeWhile isJsWhitespace
      let r3 := r2.dropWhile isJsWhitespace
      match r3 with
      | c :: r4 =>
        if isAsciiLetterCI c then ws1 ++ [','] ++ ws2 ++ [c] ++ keysTail fuel r4
        else []
      | [] => []
    | _ => []

/-- The match `line.match(aStartRegex)`: leading digits, the separator class, the
literal `Correct:` (case-insensitive), optional whitespace, then at least one
letter optionally followed by comma-separated letters. -/
def matchAStart (line : String) : Option AStart :=
  let cs := line.data
  let digits := cs.takeWhile Char.isDigit
  let afterDigits := cs.dropWhile Char.isDigit
  if digits.isEmpty then none
  else
    match ciConsume "Correct:".data (afterDigits.dropWhile isSepChar) with
    | none => none
    | some afterKw =>
      match afterKw.dropWhile isJsWhitespace with
      | c :: r =>
        if isAsciiLetterCI c then
          some { id := ⟨digits⟩, keysRaw := ⟨c :: keysTail r.length r⟩ }
        else none
      | [] => none

/-- The regex `expStartRegex = /^\s*Explanation:\s*(.*)/i` (script.js line 777/796):
returns the captured trailing text. -/
def matchExpStart (line : String) : Option String :=
  match ciConsume "Explanation:".data (line.data.dropWhile isJsWhitespace) with
  | some rest => some ⟨rest.dropWhile isJsWhitespace⟩
  | none => none

/-- The keys `aMatch[2].split(',').map(k => k.trim().toUpperCase())` and the fresh
answer record opened at an answer-start line (script.js 787-792). -/
def answerFromAStart (a : AStart) : Answer :=
  { id := a.id,
    correctKeys := (a.keysRaw.splitOn ",").map (fun k => (jsTrim k).toUpper),
    explanation := "" }

/-- The JS `Map` with string keys, as an insertion-ordered association list. -/
abbrev AnswersMap := List (String × Answer)

/-- The JS `Map.prototype.set`: overwrite in place if the key exists, else append. -/
def mapSet (m : AnswersMap) (k : String) (v : Answer) : AnswersMap :=
  if m.any (fun p => p.1 == k) then
    m.map (fun p => if p.1 == k then (k, v) else p)
  else m ++ [(k, v)]

/-- The JS `Map.prototype.get` (string keys compare by exact equality). -/
def mapGet (m : AnswersMap) (k : String) : Option Answer :=
  (m.find? (fun p => p.1 == k)).map Prod.snd

/-- The loop body of `parseAnswersText` (script.js 779-807): classify each
trimmed line as answer-start / explanation-start / continuation, flushing the
open answer into the map at each new answer-start and at end of input. -/
def parseALoop : List String → Option Answer → AnswersMap → AnswersMap
  | [], cur, m =>
    match cur with
    | some a => mapSet m a.id a
    | none => m
  | l :: ls, cur, m =>
    let line := jsTrim l
    if line = "" then parseALoop ls cur m
    else
      match matchAStart line with
      | some a =>
        let m' :=
          match cur with
          | some prev => mapSet m prev.id prev
          | none => m
        parseALoop ls (some (answerFromAStart a)) m'
      | none =>
        match matchExpStart line with
        | some t =>
          match cur with
          | some a => parseALoop ls (some { a with explanation := t }) m
          | none => parseALoop ls cur m
        | none =>
          match cur with
          | some a =>
            parseALoop ls
              (some { a with explanation :=
                        if a.explanation = "" then line else a.explanation ++ "\n" ++ line }) m
          | none => parseALoop ls cur m

/-- The function `parseAnswersText` (script.js 770-810). -/
def parseAnswersText (text : String) : AnswersMap :=
  parseALoop (splitLines text) none []

/-- The sequence of answer records `parseAnswersText` flushes into the map, in
flush order: one record per answer-start block of the text.  Same line
classification as `parseALoop`, accumulating the flushed records as a list. -/
def flushALoop : List String → Option Answer → List Answer
  | [], cur =>
    match cur with
    | some a => [a]
    | none => []
  | l :: ls, cur =>
    let line := jsTrim l
    if line = "" then flushALoop ls cur
    else
      match matchAStart line with
      | some a =>
        match cur with
        | some prev => prev :: flushALoop ls (some (answerFromAStart a))
        | none => flushALoop ls (some (answerFromAStart a))
      | none =>
        match matchExpStart line with
        | some t =>
          match cur with
          | some a => flushALoop ls (some { a with explanation := t })
          | none => flushALoop ls cur
        | none =>
          match cur with
          | some a =>
            flushALoop ls
              (some { a with explanation :=
                        if a.explanation = "" then line else a.explanation ++ "\n" ++ line })
          | none => flushALoop ls cur

/-- The answer-start blocks of an answers text, in text order. -/
def answerBlocks (text : String) : List Answer :=
  flushALoop (splitLines text) none

/-- The last element of `as` whose id is `id`, if any. -/
def lastWithId : List Answer → String → Option Answer
  | [], _ => none
  | a :: as, id =>
    match lastWithId as id with
    | some b => some b
    | none => if a.id = id then some a else none

/-! ### Matcher (`processAndRender`, script.js 825-849) -/

/-- Steps 1 and 2 of the per-question body of `processAndRender`
(script.js 827-845): match with the answer map, then resolve the type. -/
def processQuestion (pq : ParsedQuestion) (answersMap : AnswersMap) : Question :=
  let matched :=
    match mapGet answersMap pq.id with
    | none => (([] : List String), "No answer key found.", Status.ungraded)
    | some a => (a.correctKeys, a.explanation, Status.unanswered)
  let ty :=
    match pq.explicitType with
    | some t => t
    | none => if matched.1.length > 1 then QType.MULTIPLE else QType.SINGLE
  { id := pq.id, text := pq.text, explicitType := pq.explicitType, choices := pq.choices,
    correctKeys := matched.1, explanation := matched.2.1, type := ty,
    status := matched.2.2, userSelectedKeys := [] }

/-- The matching pass over all parsed questions. -/
def processQuestions (qs : List ParsedQuestion) (answersMap : AnswersMap) : List Question :=
  qs.map (fun q => processQuestion q answersMap)

/-! ### Interaction state machine (`handleInteraction`, script.js 907-1002)

The state-relevant effects of the handler: the question's `status` and
`userSelectedKeys` fields and the stats counters.  DOM-only effects (disabling
inputs, CSS marking, revealing the explanation) carry no session state beyond
what `status` already records: the lock is re-checked from `status` on entry. -/

def handleInteraction (q : Question) (stats : Stats) (selectedKey : String)
    (checkedKeys : List String) : Question × Stats :=
  if q.status = Status.correct ∨ q.status = Status.incorrect then (q, stats)
  else if q.type = QType.SINGLE then
    if q.correctKeys.contains selectedKey then
      ({ q with status := Status.correct, userSelectedKeys := [selectedKey] },
       { stats with correct := stats.correct + 1 })
    else
      ({ q with status := Status.incorrect, userSelectedKeys := [selectedKey] },
       { stats with incorrect := stats.incorrect + 1 })
  else
    if !(q.correctKeys.contains selectedKey) then
      ({ q with status := Status.incorrect, userSelectedKeys := checkedKeys },
       { stats with incorrect := stats.incorrect + 1 })
    else if (q.correctKeys.all fun c => checkedKeys.contains c) &&
            (checkedKeys.all fun c => q.correctKeys.contains c) then
      ({ q with status := Status.correct, userSelectedKeys := checkedKeys },
       { stats with correct := stats.correct + 1 })
    else (q, stats)

/-- A sequence of selection events, each carrying the toggled key and the
current checked set, folded through `handleInteraction`. -/
def runEvents (q : Question) (stats : Stats) (evs : List (String × List String)) :
    Question × Stats :=
  evs.foldl (fun p e => handleInteraction p.1 p.2 e.1 e.2) (q, stats)

/-- A user click on the checkbox for key `k`: the DOM toggles the box, then
the `change` event calls `handleInteraction` with the checked keys read from
`card.querySelectorAll('input')` in DOM order — that is, in the question's
choice order (script.js 947-948), not in the order the user clicked. -/
def clickChoice (q : Question) (stats : Stats) (checked : List String) (k : String) :
    Question × Stats × List String :=
  let checked' := if checked.contains k then checked.filter (fun c => c != k)
                  else checked ++ [k]
  let checkedKeys := (q.choices.map Choice.key).filter (fun c => checked'.contains c)
  let r := handleInteraction q stats k checkedKeys
  (r.1, r.2, checked')

/-- A sequence of checkbox clicks on one question card. -/
def runClicks : Question → Stats → List String → List String → Question × Stats × List String
  | q, stats, checked, [] => (q, stats, checked)
  | q, stats, checked, k :: ks =>
    let r := clickChoice q stats checked k
    runClicks r.1 r.2.1 r.2.2 ks

/-! ### Scoreboard (`updateScoreboard`, script.js 1023-1031) -/

/-- The JS `Math.round` on the (nonnegative) values that arise here: round half up. -/
def jsRound (x : ℚ) : ℤ := ⌊x + 1 / 2⌋

/-- The percent computation of `updateScoreboard` (script.js 1028-1029),
in exact rational arithmetic. -/
def updateScoreboardPercent (stats : Stats) : ℤ :=
  let answered := stats.correct + stats.incorrect
  if answered > 0 then jsRound ((stats.correct : ℚ) / (answered : ℚ) * 100) else 0

/-! ### Spec-side definitions (from the specification's words, for comparison) -/

/-- Modelled from the claim's words for C8: a question-start line must have,
after the optional `Q` prefix and one or more digits, a mandatory separator
character (period, colon, or whitespace). -/
def claimQuestionStart (line : String) : Bool :=
  let cs := line.data
  let cs :=
    match cs with
    | c :: d :: rest => if (c = 'Q' ∨ c = 'q') ∧ d.isDigit then d :: rest else cs
    | _ => cs
  let digits := cs.takeWhile Char.isDigit
  let rest := cs.dropWhile Char.isDigit
  !digits.isEmpty &&
    match rest with
    | s :: _ => isSepChar s
    | [] => false

/-- What the source's question-start test actually requires of a line: an
optional `Q`/`q` prefix followed by at least one digit (everything after the
digits is optional). -/
def beginsOptQDigits (line : String) : Bool :=
  match line.data with
  | [] => false
  | c :: rest =>
    c.isDigit ||
      ((c = 'Q' || c = 'q') &&
        match rest with
        | d :: _ => d.isDigit
        | [] => false)

/-! ### Concrete instances used by witnesses and counterexamples -/

/-- The MULTIPLE question of the spec's scenario: id 2, choices A-D, correct
keys B, C, D. -/
def qMultiEx : Question :=
  { id := "2", text := "stem", explicitType := none,
    choices := [{ key := "A", text := "a" }, { key := "B", text := "b" },
                { key := "C", text := "c" }, { key := "D", text := "d" }],
    correctKeys := ["B", "C", "D"], explanation := "exp", type := QType.MULTIPLE,
    status := Status.unanswered, userSelectedKeys := [] }

/-- The SINGLE question of the spec's scenario: id 1, correct key B. -/
def qSingleEx : Question :=
  { id := "1", text := "stem", explicitType := none,
    choices := [{ key := "A", text := "a" }, { key := "B", text := "b" },
                { key := "C", text := "c" }, { key := "D", text := "d" }],
    correctKeys := ["B"], explanation := "exp", type := QType.SINGLE,
    status := Status.unanswered, userSelectedKeys := [] }

/-- A question already locked in a terminal state. -/
def qLockedEx : Question :=
  { qSingleEx with status := Status.correct, userSelectedKeys := ["B"] }

/-- An ungraded question (no answer key matched). -/
def qUngradedEx : Question :=
  { id := "9", text := "stem", explicitType := none,
    choices := [{ key := "A", text := "a" }, { key := "B", text := "b" }],
    correctKeys := [], explanation := "No answer key found.", type := QType.SINGLE,
    status := Status.ungraded, userSelectedKeys := [] }

def statsInit : Stats := { total := 1, correct := 0, incorrect := 0 }

/-- A parsed question with id 7 and no explicit tag. -/
def pqEx : ParsedQuestion :=
  { id := "7", text := "stem", explicitType := none,
    choices := [{ key := "A", text := "a" }, { key := "B", text := "b" }], rawLine := 1 }

/-- An answer map whose only entry is keyed by the id `07`. -/
def amapEx : AnswersMap :=
  [("07", { id := "07", correctKeys := ["A"], explanation := "exp" })]

/-! ## Helper lemmas about the interaction state machine -/

lemma handleInteraction_locked (q : Question) (s : Stats) (k : String) (S : List String)
    (h : q.status = Status.correct ∨ q.status = Status.incorrect) :
    handleInteraction q s k S = (q, s) := by
  unfold handleInteraction
  rw [if_pos h]

lemma handleInteraction_correctKeys (q : Question) (s : Stats) (k : String) (S : List String) :
    (handleInteraction q s k S).1.correctKeys = q.correctKeys := by
  unfold handleInteraction
  repeat' split <;> try rfl

lemma handleInteraction_step (q : Question) (s : Stats) (k : String) (S : List String) :
    handleInteraction q s k S = (q, s) ∨
    (((handleInteraction q s k S).1.status = Status.correct ∨
      (handleInteraction q s k S).1.status = Status.incorrect) ∧
     (handleInteraction q s k S).2.correct + (handleInteraction q s k S).2.incorrect =
       s.correct + s.incorrect + 1 ∧
     s.correct ≤ (handleInteraction q s k S).2.correct ∧
     s.incorrect ≤ (handleInteraction q s k S).2.incorrect) := by
  unfold handleInteraction
  repeat' split
  · left; rfl
  · right; refine ⟨Or.inl rfl, ?_, ?_, ?_⟩ <;> (dsimp only; omega)
  · right; refine ⟨Or.inr rfl, ?_, ?_, ?_⟩ <;> (dsimp only; omega)
  · right; refine ⟨Or.inr rfl, ?_, ?_, ?_⟩ <;> (dsimp only; omega)
  · right; refine ⟨Or.inl rfl, ?_, ?_, ?_⟩ <;> (dsimp only; omega)
  · left; rfl

lemma runEvents_nil (q : Question) (s : Stats) : runEvents q s [] = (q, s) := rfl

lemma runEvents_cons (q : Question) (s : Stats) (e : String × List String)
    (evs : List (String × List String)) :
    runEvents q s (e :: evs) =
      runEvents (handleInteraction q s e.1 e.2).1 (handleInteraction q s e.1 e.2).2 evs := rfl

lemma runEvents_locked (evs : List (String × List String)) : ∀ (q : Question) (s : Stats),
    (q.status = Status.correct ∨ q.status = Status.incorrect) →
    runEvents q s evs = (q, s) := by
  induction evs with
  | nil => intro q s _; rfl
  | cons e evs ih =>
    intro q s h
    rw [runEvents_cons, handleInteraction_locked q s e.1 e.2 h]
    exact ih q s h

lemma runEvents_bound (evs : List (String × List String)) : ∀ (q : Question) (s : Stats),
    s.correct ≤ (runEvents q s evs).2.correct ∧
    s.incorrect ≤ (runEvents q s evs).2.incorrect ∧
    (runEvents q s evs).2.correct + (runEvents q s evs).2.incorrect ≤
      s.correct + s.incorrect + 1 := by
  induction evs with
  | nil => intro q s; exact ⟨le_refl _, le_refl _, Nat.le_succ _⟩
  | cons e evs ih =>
    intro q s
    rw [runEvents_cons]
    rcases handleInteraction_step q s e.1 e.2 with heq | ⟨hterm, hsum, hc, hi⟩
    · rw [heq]
      exact ih q s
    · rw [runEvents_locked evs _ _ hterm]
      exact ⟨hc, hi, le_of_eq hsum⟩

lemma handleInteraction_empty_not_correct (q : Question) (s : Stats) (k : String)
    (S : List String) (hck : q.correctKeys = []) (h : q.status ≠ Status.correct) :
    (handleInteraction q s k S).1.status ≠ Status.correct := by
  unfold handleInteraction
  by_cases h1 : q.status = Status.correct ∨ q.status = Status.incorrect
  · rw [if_pos h1]; exact h
  · rw [if_neg h1]
    by_cases h2 : q.type = QType.SINGLE
    · rw [if_pos h2]
      simp [hck]
    · rw [if_neg h2]
      simp [hck]

lemma handleInteraction_ungraded_incorrect (q : Question) (s : Stats) (k : String)
    (S : List String) (hck : q.correctKeys = []) (hst : q.status = Status.ungraded) :
    (handleInteraction q s k S).1.status = Status.incorrect := by
  unfold handleInteraction
  rw [hst]
  simp [hck]
  split <;> rfl

lemma runEvents_empty_not_correct (evs : List (String × List String)) :
    ∀ (q : Question) (s : Stats), q.correctKeys = [] → q.status ≠ Status.correct →
    (runEvents q s evs).1.status ≠ Status.correct := by
  induction evs with
  | nil => intro q s _ h; exact h
  | cons e evs ih =>
    intro q s hck h
    rw [runEvents_cons]
    exact ih _ _ (by rw [handleInteraction_correctKeys]; exact hck)
      (handleInteraction_empty_not_correct q s e.1 e.2 hck h)

/-! ## Claims about the interaction state machine -/

/-- C1: for a MULTIPLE question in status unanswered, a choice-toggled event
adding key `k` with current checked set `S` behaves as follows: if `k` is not
a correct key, the question becomes incorrect with `userSelectedKeys = S`
(terminal); if `k` is correct and `S` equals the correct keys as a set, the
question becomes correct with `userSelectedKeys = S` (terminal); if `k` is
correct and `S` is a strict, correct-only subset of the correct keys, nothing
changes and the status remains unanswered. -/
theorem multiple_unanswered_toggle_spec (q : Question) (stats : Stats) (k : String)
    (S : List String) (hty : q.type = QType.MULTIPLE) (hst : q.status = Status.unanswered) :
    (k ∉ q.correctKeys →
      (handleInteraction q stats k S).1.status = Status.incorrect ∧
      (handleInteraction q stats k S).1.userSelectedKeys = S) ∧
    (k ∈ q.correctKeys → (∀ c, c ∈ q.correctKeys ↔ c ∈ S) →
      (handleInteraction q stats k S).1.status = Status.correct ∧
      (handleInteraction q stats k S).1.userSelectedKeys = S) ∧
    (k ∈ q.correctKeys → (∀ c ∈ S, c ∈ q.correctKeys) → (∃ c ∈ q.correctKeys, c ∉ S) →
      handleInteraction q stats k S = (q, stats)) := by
  have hguard : ¬(q.status = Status.correct ∨ q.status = Status.incorrect) := by
    rw [hst]; decide
  have hsingle : ¬(q.type = QType.SINGLE) := by rw [hty]; decide
  refine ⟨?_, ?_, ?_⟩
  · intro hk
    have hc : q.correctKeys.contains k = false := by simpa using hk
    unfold handleInteraction
    rw [if_neg hguard, if_neg hsingle, if_pos (show (!q.correctKeys.contains k) = true by
      rw [hc]; decide)]
    exact ⟨rfl, rfl⟩
  · intro hk hset
    have hc : q.correctKeys.contains k = true := by simpa using hk
    have hall1 : (q.correctKeys.all fun c => S.contains c) = true := by
      rw [List.all_eq_true]; intro x hx; simpa using (hset x).1 hx
    have hall2 : (S.all fun c => q.correctKeys.contains c) = true := by
      rw [List.all_eq_true]; intro x hx; simpa using (hset x).2 hx
    unfold handleInteraction
    rw [if_neg hguard, if_neg hsingle,
      if_neg (show ¬(!q.correctKeys.contains k) = true by rw [hc]; decide),
      if_pos (show ((q.correctKeys.all fun c => S.contains c) &&
        (S.all fun c => q.correctKeys.contains c)) = true by rw [hall1, hall2]; decide)]
    exact ⟨rfl, rfl⟩
  · intro hk hsub hmiss
    have hc : q.correctKeys.contains k = true := by simpa using hk
    have hall1 : (q.correctKeys.all fun c => S.contains c) = false := by
      rcases hmiss with ⟨c, hcmem, hcnot⟩
      have hnot : ¬((q.correctKeys.all fun c => S.contains c) = true) := by
        rw [List.all_eq_true]
        intro hforall
        exact hcnot (by simpa using hforall c hcmem)
      simpa using hnot
    unfold handleInteraction
    rw [if_neg hguard, if_neg hsingle,
      if_neg (show ¬(!q.correctKeys.contains k) = true by rw [hc]; decide),
      if_neg (show ¬((q.correctKeys.all fun c => S.contains c) &&
        (S.all fun c => q.correctKeys.contains c)) = true by
          rw [hall1, Bool.false_and]; decide)]

/-- Witness for C1 at a concrete MULTIPLE question: toggling the wrong key A
with checked set A, B makes the question incorrect and records that set. -/
theorem multiple_unanswered_toggle_spec_witness :
    (handleInteraction qMultiEx statsInit "A" ["A", "B"]).1.status = Status.incorrect ∧
    (handleInteraction qMultiEx statsInit "A" ["A", "B"]).1.userSelectedKeys = ["A", "B"] :=
  (multiple_unanswered_toggle_spec qMultiEx statsInit "A" ["A", "B"] rfl rfl).1 (by decide)

/-- C2: for a SINGLE question in status unanswered, the first selection event
with key `k` is terminal: the status becomes correct exactly when `k` is a
correct key and incorrect otherwise, `userSelectedKeys` becomes `[k]`, and
every later event on the resulting question is ignored. -/
theorem single_first_selection_terminal (q : Question) (stats : Stats) (k : String)
    (S : List String) (hty : q.type = QType.SINGLE) (hst : q.status = Status.unanswered) :
    ((k ∈ q.correctKeys → (handleInteraction q stats k S).1.status = Status.correct) ∧
     (k ∉ q.correctKeys → (handleInteraction q stats k S).1.status = Status.incorrect)) ∧
    (handleInteraction q stats k S).1.userSelectedKeys = [k] ∧
    (∀ k2 S2 stats2,
      handleInteraction (handleInteraction q stats k S).1 stats2 k2 S2 =
        ((handleInteraction q stats k S).1, stats2)) := by
  have hguard : ¬(q.status = Status.correct ∨ q.status = Status.incorrect) := by
    rw [hst]; decide
  by_cases hc : q.correctKeys.contains k = true
  · have hm : k ∈ q.correctKeys := by simpa using hc
    have hterm : (handleInteraction q stats k S).1.status = Status.correct := by
      unfold handleInteraction
      rw [if_neg hguard, if_pos hty, if_pos hc]
    have huser : (handleInteraction q stats k S).1.userSelectedKeys = [k] := by
      unfold handleInteraction
      rw [if_neg hguard, if_pos hty, if_pos hc]
    exact ⟨⟨fun _ => hterm, fun hk' => absurd hm hk'⟩, huser,
      fun k2 S2 s2 => handleInteraction_locked _ _ _ _ (Or.inl hterm)⟩
  · have hcf : q.correctKeys.contains k = false := by simpa using hc
    have hm : k ∉ q.correctKeys := by simpa using hcf
    have hterm : (handleInteraction q stats k S).1.status = Status.incorrect := by
      unfold handleInteraction
      rw [if_neg hguard, if_pos hty,
        if_neg (show ¬q.correctKeys.contains k = true by rw [hcf]; decide)]
    have huser : (handleInteraction q stats k S).1.userSelectedKeys = [k] := by
      unfold handleInteraction
      rw [if_neg hguard, if_pos hty,
        if_neg (show ¬q.correctKeys.contains k = true by rw [hcf]; decide)]
    exact ⟨⟨fun hk => absurd hk hm, fun _ => hterm⟩, huser,
      fun k2 S2 s2 => handleInteraction_locked _ _ _ _ (Or.inr hterm)⟩

/-- Witness for C2 at the spec's scenario: question 1 with correct key B;
selecting C yields incorrect with `userSelectedKeys = ["C"]`, and a second
event is ignored. -/
theorem single_first_selection_terminal_witness :
    (handleInteraction qSingleEx statsInit "C" ["C"]).1.status = Status.incorrect ∧
    (handleInteraction qSingleEx statsInit "C" ["C"]).1.userSelectedKeys = ["C"] := by
  have h := single_first_selection_terminal qSingleEx statsInit "C" ["C"] rfl rfl
  exact ⟨h.1.2 (by decide), h.2.1⟩

/-- C3: a question whose status is correct or incorrect is locked — every
later event leaves the question and the stats unchanged — and over any event
sequence on one question the counters never decrease and together grow by at
most one. -/
theorem terminal_lock_and_stats_monotone (q : Question) (stats : Stats)
    (evs : List (String × List String)) :
    ((q.status = Status.correct ∨ q.status = Status.incorrect) →
      runEvents q stats evs = (q, stats)) ∧
    stats.correct ≤ (runEvents q stats evs).2.correct ∧
    stats.incorrect ≤ (runEvents q stats evs).2.incorrect ∧
    (runEvents q stats evs).2.correct + (runEvents q stats evs).2.incorrect ≤
      stats.correct + stats.incorrect + 1 :=
  ⟨fun h => runEvents_locked evs q stats h, runEvents_bound evs q stats⟩

/-- Witness for C3 at a concrete locked question: events are ignored. -/
theorem terminal_lock_and_stats_monotone_witness :
    runEvents qLockedEx statsInit [("A", ["A"]), ("C", ["C"])] = (qLockedEx, statsInit) :=
  (terminal_lock_and_stats_monotone qLockedEx statsInit [("A", ["A"]), ("C", ["C"])]).1
    (Or.inl rfl)

/-- C6: an ungraded question (empty correct-key set after matching) is never
marked correct by any sequence of selection events, and any single selection
on it is evaluated against the empty correct set and yields incorrect. -/
theorem ungraded_never_correct (q : Question) (stats : Stats)
    (hck : q.correctKeys = []) (hst : q.status = Status.ungraded) :
    (∀ evs, (runEvents q stats evs).1.status ≠ Status.correct) ∧
    (∀ k S, (handleInteraction q stats k S).1.status = Status.incorrect) := by
  constructor
  · intro evs
    exact runEvents_empty_not_correct evs q stats hck (by rw [hst]; decide)
  · intro k S
    exact handleInteraction_ungraded_incorrect q stats k S hck hst

/-- Witness for C6 at a concrete ungraded question. -/
theorem ungraded_never_correct_witness :
    (runEvents qUngradedEx statsInit [("A", ["A"]), ("B", ["A", "B"])]).1.status ≠
      Status.correct ∧
    (handleInteraction qUngradedEx statsInit "A" ["A"]).1.status = Status.incorrect := by
  have h := ungraded_never_correct qUngradedEx statsInit rfl rfl
  exact ⟨h.1 [("A", ["A"]), ("B", ["A", "B"])], h.2 "A" ["A"]⟩

/-! ## Claims about the matcher and the scoreboard -/

lemma mapGet_eq_none (m : AnswersMap) (k : String) (h : ∀ e ∈ m, e.1 ≠ k) :
    mapGet m k = none := by
  unfold mapGet
  have hfind : (m.find? fun p => p.1 == k) = none :=
    List.find?_eq_none.mpr (fun x hx => by simpa using h x hx)
  rw [hfind]
  rfl

/-- C4: matching is by exact string equality of ids.  If the answer map has no
entry whose id is exactly the question's id, the question comes out of
matching with status ungraded, empty correctKeys and the placeholder
explanation; if such an entry exists, the question receives its correctKeys
and explanation and status unanswered. -/
theorem matching_exact_id (pq : ParsedQuestion) (amap : AnswersMap) :
    ((∀ e ∈ amap, e.1 ≠ pq.id) →
      (processQuestion pq amap).status = Status.ungraded ∧
      (processQuestion pq amap).correctKeys = [] ∧
      (processQuestion pq amap).explanation = "No answer key found.") ∧
    (∀ a, mapGet amap pq.id = some a →
      (processQuestion pq amap).status = Status.unanswered ∧
      (processQuestion pq amap).correctKeys = a.correctKeys ∧
      (processQuestion pq amap).explanation = a.explanation) := by
  constructor
  · intro h
    have hget : mapGet amap pq.id = none := mapGet_eq_none amap pq.id h
    unfold processQuestion
    rw [hget]
    exact ⟨rfl, rfl, rfl⟩
  · intro a ha
    unfold processQuestion
    rw [ha]
    exact ⟨rfl, rfl, rfl⟩

/-- Witness for C4: a question with id 7 does not match an answer map whose
only key is 07 (no fuzzy or positional fallback). -/
theorem matching_exact_id_witness :
    (processQuestion pqEx amapEx).status = Status.ungraded ∧
    (processQuestion pqEx amapEx).correctKeys = [] ∧
    (processQuestion pqEx amapEx).explanation = "No answer key found." :=
  (matching_exact_id pqEx amapEx).1 (by decide)

/-- C5: after matching, `type` equals `explicitType` when the latter is
present; otherwise it is MULTIPLE iff `correctKeys` has length greater than
one; in particular an unmatched question with no explicit tag resolves to
SINGLE. -/
theorem type_resolution (pq : ParsedQuestion) (amap : AnswersMap) :
    (∀ t, pq.explicitType = some t → (processQuestion pq amap).type = t) ∧
    (pq.explicitType = none →
      (processQuestion pq amap).type =
        (if 1 < (processQuestion pq amap).correctKeys.length then QType.MULTIPLE
         else QType.SINGLE)) ∧
    (pq.explicitType = none → (∀ e ∈ amap, e.1 ≠ pq.id) →
      (processQuestion pq amap).type = QType.SINGLE) := by
  refine ⟨?_, ?_, ?_⟩
  · intro t ht
    unfold processQuestion
    rw [ht]
  · intro ht
    unfold processQuestion
    rw [ht]
  · intro ht h
    have hget : mapGet amap pq.id = none := mapGet_eq_none amap pq.id h
    unfold processQuestion
    rw [ht, hget]
    rfl

/-- Witness for C5: an explicit `[Single]` tag wins over three correct keys,
and matching id 3 picks up that answer. -/
theorem type_resolution_witness :
    (processQuestion
      { id := "3", text := "stem", explicitType := some QType.SINGLE,
        choices := [], rawLine := 1 }
      [("3", { id := "3", correctKeys := ["A", "B", "C"], explanation := "" })]).type =
      QType.SINGLE :=
  (type_resolution
    { id := "3", text := "stem", explicitType := some QType.SINGLE,
      choices := [], rawLine := 1 }
    [("3", { id := "3", correctKeys := ["A", "B", "C"], explanation := "" })]).1
    QType.SINGLE rfl

/-- C10: the scoreboard percent equals `round(correct / (correct + incorrect)
* 100)` when at least one question has been answered and 0 otherwise. -/
theorem percent_formula (stats : Stats) :
    (0 < stats.correct + stats.incorrect →
      updateScoreboardPercent stats =
        round ((stats.correct : ℚ) / ((stats.correct : ℚ) + (stats.incorrect : ℚ)) * 100)) ∧
    (stats.correct + stats.incorrect = 0 → updateScoreboardPercent stats = 0) := by
  constructor
  · intro h
    unfold updateScoreboardPercent jsRound
    rw [if_pos h, round_eq]
    push_cast
    ring_nf
  · intro h
    unfold updateScoreboardPercent
    rw [if_neg (by omega)]

/-- Witness for C10 at the spec's example: 3 correct and 1 incorrect give
75 percent. -/
theorem percent_formula_witness :
    updateScoreboardPercent { total := 4, correct := 3, incorrect := 1 } = 75 := by
  have h := (percent_formula { total := 4, correct := 3, incorrect := 1 }).1 (by decide)
  rw [h]
  rw [show ((3 : Nat) : ℚ) / (((3 : Nat) : ℚ) + ((1 : Nat) : ℚ)) * 100 = 75 by norm_num]
  norm_num [round_eq]

/-! ## Claim C7: the MULTIPLE scenario B, C, A -/

/-- Counterexample to C7: playing the spec's scenario (question 2, correct
keys B, C, D; the user checks B, then C, then A) does end incorrect, but
`userSelectedKeys` is the checked set read in DOM (choice) order,
`["A", "B", "C"]`, not the selection order `["B", "C", "A"]` the claim
states. -/
theorem multiple_scenario_order_counterexample :
    (runClicks qMultiEx statsInit [] ["B", "C", "A"]).1.status = Status.incorrect ∧
    (runClicks qMultiEx statsInit [] ["B", "C", "A"]).1.userSelectedKeys = ["A", "B", "C"] ∧
    (runClicks qMultiEx statsInit [] ["B", "C", "A"]).1.userSelectedKeys ≠ ["B", "C", "A"] := by
  decide

/-- C7 as amended: checking B is a no-op (state unchanged, still unanswered),
checking C is a no-op, and checking A makes the question incorrect with
`userSelectedKeys` equal to the checked keys in the question's choice (DOM)
order, `["A", "B", "C"]`, and one incorrect tallied. -/
theorem multiple_scenario_dom_order :
    (runClicks qMultiEx statsInit [] ["B"]).1 = qMultiEx ∧
    (runClicks qMultiEx statsInit [] ["B"]).2.1 = statsInit ∧
    (runClicks qMultiEx statsInit [] ["B", "C"]).1 = qMultiEx ∧
    (runClicks qMultiEx statsInit [] ["B", "C"]).2.1 = statsInit ∧
    (runClicks qMultiEx statsInit [] ["B", "C", "A"]).1.status = Status.incorrect ∧
    (runClicks qMultiEx statsInit [] ["B", "C", "A"]).1.userSelectedKeys = ["A", "B", "C"] ∧
    (runClicks qMultiEx statsInit [] ["B", "C", "A"]).2.1.incorrect = 1 := by
  decide

/-! ## Claim C8: the question-start pattern -/

/-- Counterexample to C8: the line `1abc` has its leading digit followed
directly by other text with no separator character, yet the source's
question-start regex matches it (the regex has `[\.:\s]*`, zero or more
separators), so it does open a new question. -/
theorem question_start_separator_counterexample :
    (matchQStart "1abc").isSome = true ∧ claimQuestionStart "1abc" = false := by
  decide

/-- C8 as amended: a trimmed non-blank line opens a new question exactly when
it begins with an optional `Q` prefix followed by one or more digits; the
separator after the digits is optional, so digits followed directly by other
text still open a question. -/
theorem question_start_chars (line : String) :
    (matchQStart line).isSome = beginsOptQDigits line := by
  obtain ⟨cs⟩ := line
  rcases cs with _ | ⟨c, _ | ⟨d, rest⟩⟩
  · rfl
  · by_cases hd : c.isDigit
    · simp [matchQStart, beginsOptQDigits, hd]
    · simp [matchQStart, beginsOptQDigits, hd]
  · by_cases hq : (c = 'Q' ∨ c = 'q') ∧ d.isDigit
    · obtain ⟨hc, hd⟩ := hq
      have hcd : c.isDigit = false := by
        rcases hc with hc | hc <;> subst hc <;> decide
      rcases hc with hc | hc <;> subst hc <;>
        simp [matchQStart, beginsOptQDigits, hd, hcd]
    · by_cases hd : c.isDigit
      · simp [matchQStart, beginsOptQDigits, hq, hd]
      · have hb : ((c = 'Q' || c = 'q') && d.isDigit) = false := by
          by_cases h1 : c = 'Q'
          · have h2 : ¬(d.isDigit = true) := fun h => hq ⟨Or.inl h1, h⟩
            simp [h1, h2]
          · by_cases h1' : c = 'q'
            · have h2 : ¬(d.isDigit = true) := fun h => hq ⟨Or.inr h1', h⟩
              simp [h1', h2]
            · simp [h1, h1']
        simp [matchQStart, beginsOptQDigits, hq, hd, hb]

/-! ## Claim C9: the answer map is unique-keyed and last-write-wins -/

lemma mapGet_cons (p : String × Answer) (m : AnswersMap) (k : String) :
    mapGet (p :: m) k = if p.1 == k then some p.2 else mapGet m k := by
  cases hp : (p.1 == k) with
  | true => simp [mapGet, List.find?_cons, hp]
  | false => simp [mapGet, List.find?_cons, hp]

lemma mapSet_keys (m : AnswersMap) (k : String) (v : Answer) :
    (mapSet m k v).map Prod.fst =
      if m.any (fun p => p.1 == k) then m.map Prod.fst else m.map Prod.fst ++ [k] := by
  unfold mapSet
  split
  · rw [List.map_map]
    apply List.map_congr_left
    intro p hp
    show (if p.1 == k then (k, v) else p).1 = p.1
    by_cases h : (p.1 == k) = true
    · rw [if_pos h]
      exact (beq_iff_eq.mp h).symm
    · rw [if_neg h]
  · simp

lemma findSome_replace (m : AnswersMap) (k : String) (v : Answer)
    (hany : m.any (fun p => p.1 == k) = true) :
    mapGet (m.map (fun p => if p.1 == k then (k, v) else p)) k = some v := by
  induction m with
  | nil => simp at hany
  | cons p m ih =>
    rw [List.map_cons, mapGet_cons]
    by_cases hp : (p.1 == k) = true
    · rw [if_pos (show ((if p.1 == k then (k, v) else p).1 == k) = true by
        rw [if_pos hp]; exact beq_self_eq_true k)]
      rw [if_pos hp]
    · have hpf : (p.1 == k) = false := by simpa using hp
      rw [if_neg (show ¬((if p.1 == k then (k, v) else p).1 == k) = true by
        rw [if_neg hp]; exact hp)]
      refine ih ?_
      simp only [List.any_cons, hpf, Bool.false_or] at hany
      exact hany

lemma findSome_append (m : AnswersMap) (k : String) (v : Answer)
    (hany : m.any (fun p => p.1 == k) = false) :
    mapGet (m ++ [(k, v)]) k = some v := by
  induction m with
  | nil => simp [mapGet_cons]
  | cons p m ih =>
    have hpf : (p.1 == k) = false := by
      simp only [List.any_cons, Bool.or_eq_false_iff] at hany
      exact hany.1
    rw [List.cons_append, mapGet_cons, if_neg (show ¬(p.1 == k) = true by rw [hpf]; decide)]
    refine ih ?_
    simp only [List.any_cons, Bool.or_eq_false_iff] at hany
    exact hany.2

lemma mapGet_mapSet_self (m : AnswersMap) (k : String) (v : Answer) :
    mapGet (mapSet m k v) k = some v := by
  unfold mapSet
  by_cases hany : m.any (fun p => p.1 == k) = true
  · rw [if_pos hany]
    exact findSome_replace m k v hany
  · rw [if_neg hany]
    exact findSome_append m k v (Bool.eq_false_iff.mpr hany)

lemma findNe_replace (m : AnswersMap) (k : String) (v : Answer) (id : String) (hne : id ≠ k) :
    mapGet (m.map (fun p => if p.1 == k then (k, v) else p)) id = mapGet m id := by
  induction m with
  | nil => rfl
  | cons p m ih =>
    rw [List.map_cons, mapGet_cons, mapGet_cons]
    by_cases hp : (p.1 == k) = true
    · have h1 : ((if p.1 == k then (k, v) else p).1 == id) = false := by
        rw [if_pos hp]
        simpa using fun h => hne h.symm
      have h2 : (p.1 == id) = false := by
        rw [beq_iff_eq.mp hp]
        simpa using fun h => hne h.symm
      rw [if_neg (show ¬((if p.1 == k then (k, v) else p).1 == id) = true by
          rw [h1]; decide),
        if_neg (show ¬(p.1 == id) = true by rw [h2]; decide)]
      exact ih
    · rw [if_neg hp]
      by_cases hpid : (p.1 == id) = true
      · rw [if_pos hpid, if_pos hpid]
      · rw [if_neg hpid, if_neg hpid]
        exact ih

lemma findNe_append (m : AnswersMap) (k : String) (v : Answer) (id : String) (hne : id ≠ k) :
    mapGet (m ++ [(k, v)]) id = mapGet m id := by
  induction m with
  | nil =>
    have h1 : (((k, v) : String × Answer).1 == id) = false := by
      simpa using fun h => hne h.symm
    simp [mapGet_cons, h1, mapGet]
  | cons p m ih =>
    rw [List.cons_append, mapGet_cons, mapGet_cons]
    by_cases hpid : (p.1 == id) = true
    · rw [if_pos hpid, if_pos hpid]
    · rw [if_neg hpid, if_neg hpid]
      exact ih

lemma mapGet_mapSet_ne (m : AnswersMap) (k : String) (v : Answer) (id : String)
    (hne : id ≠ k) : mapGet (mapSet m k v) id = mapGet m id := by
  unfold mapSet
  split
  · exact findNe_replace m k v id hne
  · exact findNe_append m k v id hne

lemma mapSet_keys_nodup (m : AnswersMap) (k : String) (v : Answer)
    (h : (m.map Prod.fst).Nodup) : ((mapSet m k v).map Prod.fst).Nodup := by
  rw [mapSet_keys]
  split
  · exact h
  · rename_i hany
    have hk : k ∉ m.map Prod.fst := by
      intro hmem
      apply hany
      rcases List.mem_map.mp hmem with ⟨p, hp, hpk⟩
      exact List.any_eq_true.mpr ⟨p, hp, by simpa using hpk⟩
    rw [List.nodup_append]
    exact ⟨h, List.nodup_singleton k, by simpa using hk⟩

lemma foldl_mapSet_keys_nodup (as : List Answer) : ∀ m : AnswersMap,
    (m.map Prod.fst).Nodup →
    ((as.foldl (fun m a => mapSet m a.id a) m).map Prod.fst).Nodup := by
  induction as with
  | nil => intro m h; exact h
  | cons a as ih =>
    intro m h
    rw [List.foldl_cons]
    exact ih _ (mapSet_keys_nodup m a.id a h)

lemma mapGet_foldl_mapSet (as : List Answer) : ∀ (m : AnswersMap) (id : String),
    mapGet (as.foldl (fun m a => mapSet m a.id a) m) id =
      match lastWithId as id with
      | some b => some b
      | none => mapGet m id := by
  induction as with
  | nil => intro m id; rfl
  | cons a as ih =>
    intro m id
    rw [List.foldl_cons, ih]
    simp only [lastWithId]
    cases hl : lastWithId as id with
    | some b => simp only [hl]
    | none =>
      simp only [hl]
      by_cases hid : a.id = id
      · rw [if_pos hid]
        rw [← hid]
        exact mapGet_mapSet_self m a.id a
      · rw [if_neg hid]
        exact mapGet_mapSet_ne m a.id a id (fun h => hid h.symm)

lemma parseALoop_eq_foldl (ls : List String) : ∀ (cur : Option Answer) (m : AnswersMap),
    parseALoop ls cur m = (flushALoop ls cur).foldl (fun m a => mapSet m a.id a) m := by
  induction ls with
  | nil =>
    intro cur m
    cases cur with
    | none => rfl
    | some a => rfl
  | cons l ls ih =>
    intro cur m
    by_cases hline : jsTrim l = ""
    · simp only [parseALoop, flushALoop, hline, if_true]
      exact ih cur m
    · cases ha : matchAStart (jsTrim l) with
      | some a =>
        cases cur with
        | some prev =>
          simp only [parseALoop, flushALoop, hline, ha, if_neg hline, List.foldl_cons]
          exact ih _ _
        | none =>
          simp only [parseALoop, flushALoop, hline, ha, if_neg hline]
          exact ih _ _
      | none =>
        cases he : matchExpStart (jsTrim l) with
        | some t =>
          cases cur with
          | some aa =>
            simp only [parseALoop, flushALoop, hline, ha, he, if_neg hline]
            exact ih _ _
          | none =>
            simp only [parseALoop, flushALoop, hline, ha, he, if_neg hline]
            exact ih _ _
        | none =>
          cases cur with
          | some aa =>
            simp only [parseALoop, flushALoop, hline, ha, he, if_neg hline]
            exact ih _ _
          | none =>
            simp only [parseALoop, flushALoop, hline, ha, he, if_neg hline]
            exact ih _ _

/-- C9: the answer map has unique keys, and for every id its entry is the
last answer-start block of the text with that id (last write wins). -/
theorem answer_map_last_write_wins (text : String) :
    ((parseAnswersText text).map Prod.fst).Nodup ∧
    ∀ id, mapGet (parseAnswersText text) id = lastWithId (answerBlocks text) id := by
  constructor
  · unfold parseAnswersText
    rw [parseALoop_eq_foldl]
    exact foldl_mapSet_keys_nodup _ [] (by simp)
  · intro id
    unfold parseAnswersText answerBlocks
    rw [parseALoop_eq_foldl, mapGet_foldl_mapSet]
    cases hl : lastWithId (flushALoop (splitLines text) none) id with
    | some b => rfl
    | none => rfl
